import Mathlib

/- Shallow embedding of src/code/main.cpp: a GLFW demo that renders an
instanced grid of unit spheres with an orbiting camera.  Floating point
arithmetic is idealised: the purely rational computations (instance grid,
colors, matrices) are modelled over ℚ, the trigonometric ones (sphere mesh,
camera orbit) over ℝ. -/

/-! ## Mesh generator (`generateSphere`, main.cpp lines 57-102) -/

/-- radius constant of `generateSphere` (line 58). -/
def sphereRadius : ℝ := 1

/-- theta = lat * M_PI / latitudeBands (line 64). -/
noncomputable def sphereTheta (L lat : ℕ) : ℝ := (lat : ℝ) * Real.pi / (L : ℝ)

/-- phi = lon * 2.0f * M_PI / longitudeBands (line 69). -/
noncomputable def spherePhi (G lon : ℕ) : ℝ := (lon : ℝ) * 2 * Real.pi / (G : ℝ)

/-- The six floats pushed for one (lat, lon) pair (lines 73-83):
position `radius * (x, y, z)` followed by normal `(x, y, z)` with
`x = cosPhi * sinTheta`, `y = cosTheta`, `z = sinPhi * sinTheta`. -/
noncomputable def sphereVertexChunk (L G lat lon : ℕ) : List ℝ :=
  [sphereRadius * (Real.cos (spherePhi G lon) * Real.sin (sphereTheta L lat)),
   sphereRadius * Real.cos (sphereTheta L lat),
   sphereRadius * (Real.sin (spherePhi G lon) * Real.sin (sphereTheta L lat)),
   Real.cos (spherePhi G lon) * Real.sin (sphereTheta L lat),
   Real.cos (sphereTheta L lat),
   Real.sin (spherePhi G lon) * Real.sin (sphereTheta L lat)]

/-- The vertex buffer built by the double loop of lines 63-85:
lat in [0, L] outer, lon in [0, G] inner. -/
noncomputable def sphereVertices (L G : ℕ) : List ℝ :=
  (List.range (L + 1)).flatMap fun lat =>
    (List.range (G + 1)).flatMap fun lon => sphereVertexChunk L G lat lon

/-- The six indices pushed for one (lat, lon) quad (lines 90-99). -/
def sphereIndexChunk (G lat lon : ℕ) : List ℕ :=
  let first := lat * (G + 1) + lon
  let second := first + G + 1
  [first, second, first + 1, second, second + 1, first + 1]

/-- The index buffer built by the double loop of lines 88-101:
lat in [0, L) outer, lon in [0, G) inner. -/
def sphereIndices (L G : ℕ) : List ℕ :=
  (List.range L).flatMap fun lat =>
    (List.range G).flatMap fun lon => sphereIndexChunk G lat lon

/-- `generateSphere` (lines 57-102): both output vectors are cleared
(lines 59-60) before the loops fill them, so the result ignores the vectors'
prior contents entirely. -/
noncomputable def generateSphere (vertices : List ℝ) (indices : List ℕ)
    (latitudeBands longitudeBands : ℕ) : List ℝ × List ℕ :=
  (sphereVertices latitudeBands longitudeBands,
   sphereIndices latitudeBands longitudeBands)

/-- Number of vertices in the buffer: six floats per vertex. -/
noncomputable def vertexCount (L G : ℕ) : ℕ := (sphereVertices L G).length / 6

/-- The six floats of vertex number `n` in the buffer. -/
noncomputable def vertexSlice (L G n : ℕ) : List ℝ :=
  ((sphereVertices L G).drop (6 * n)).take 6

/-! ## Instance grid builder (main.cpp lines 152-183) -/

/-- One per-instance record: a 4x4 model matrix and an RGB color
(struct InstanceData, lines 14-17). -/
structure InstanceData where
  model : Matrix (Fin 4) (Fin 4) ℚ
  color : ℚ × ℚ × ℚ

instance : Inhabited InstanceData := ⟨⟨0, (0, 0, 0)⟩⟩

/-- Homogeneous translation matrix by (x, y, z). -/
def translationMatrix (x y z : ℚ) : Matrix (Fin 4) (Fin 4) ℚ :=
  Matrix.of ![![1, 0, 0, x], ![0, 1, 0, y], ![0, 0, 1, z], ![0, 0, 0, 1]]

/-- Homogeneous uniform scale matrix by s. -/
def scaleMatrix (s : ℚ) : Matrix (Fin 4) (Fin 4) ℚ :=
  Matrix.of ![![s, 0, 0, 0], ![0, s, 0, 0], ![0, 0, s, 0], ![0, 0, 0, 1]]

/-- glm::translate(m, v) right-multiplies by the translation matrix. -/
def glmTranslate (m : Matrix (Fin 4) (Fin 4) ℚ) (x y z : ℚ) :
    Matrix (Fin 4) (Fin 4) ℚ := m * translationMatrix x y z

/-- glm::scale(m, vec3(s)) right-multiplies by the scale matrix. -/
def glmScale (m : Matrix (Fin 4) (Fin 4) ℚ) (s : ℚ) :
    Matrix (Fin 4) (Fin 4) ℚ := m * scaleMatrix s

/-- The record computed for lattice cell (i, j, k) (lines 171-177):
`x = (-Nx / 2.0f) * spread + spread * i`, `y = spread * j + spread`,
`z = (-Nz / 2.0f) * spread + spread * k`;
`model = scale(translate(I, (x,y,z)), s)`; `color = 0.1f * (coord + 1)`. -/
def gridRecord (Nx Nz : ℕ) (spr scl : ℚ) (i j k : ℕ) : InstanceData :=
  { model := glmScale (glmTranslate 1 (-(Nx : ℚ) / 2 * spr + spr * i)
      (spr * j + spr) (-(Nz : ℚ) / 2 * spr + spr * k)) scl
    color := (0.1 * ((i : ℚ) + 1), 0.1 * ((j : ℚ) + 1), 0.1 * ((k : ℚ) + 1)) }

/-- index = i * (numObj_y * numObj_z) + j * numObj_z + k (line 179). -/
def linIndex (Ny Nz i j k : ℕ) : ℕ := i * (Ny * Nz) + j * Nz + k

/-- The (i, j, k) triples visited by the triple loop of lines 165-169,
in loop order. -/
def gridCoords (Nx Ny Nz : ℕ) : List (ℕ × ℕ × ℕ) :=
  (List.range Nx).flatMap fun i =>
    (List.range Ny).flatMap fun j =>
      (List.range Nz).map fun k => (i, j, k)

/-- The instance array: a vector of `Nx*Ny*Nz` value-initialised records
(line 157) written at `linIndex` by the triple loop (lines 165-183). -/
def buildGrid (Nx Ny Nz : ℕ) (spr scl : ℚ) : List InstanceData :=
  (gridCoords Nx Ny Nz).foldl
    (fun arr t => arr.set (linIndex Ny Nz t.1 t.2.1 t.2.2)
      (gridRecord Nx Nz spr scl t.1 t.2.1 t.2.2))
    (List.replicate (Nx * Ny * Nz) default)

/-! ## Constants of `main` (lines 152-163, 230-246) -/

def numObj_x : ℕ := 30
def numObj_y : ℕ := 30
def numObj_z : ℕ := 30

/-- constexpr int instanceCount = numObj_x * numObj_y * numObj_z (line 156). -/
def instanceCount : ℕ := numObj_x * numObj_y * numObj_z

/-- constexpr float spread = 1.15f (line 160). -/
def spread : ℚ := 1.15

/-- the literal uniform scale factor 0.33f of line 176. -/
def instanceScale : ℚ := 0.33

/-- The instance array `main` actually builds. -/
def mainInstanceData : List InstanceData :=
  buildGrid numObj_x numObj_y numObj_z spread instanceScale

/-- The instance count passed to glDrawElementsInstanced (line 246). -/
def drawInstanceCount : ℕ := instanceCount

/-! ## Camera driver (lines 162-163, 215, 230-240) -/

/-- constexpr float cameraDist = spread * numObj_x * 1.5f (line 162). -/
noncomputable def cameraDist : ℝ := (spread : ℝ) * (numObj_x : ℝ) * 1.5

/-- const float camSpead2 = 0.5f (line 163). -/
def camSpead2 : ℝ := 0.5

/-- cameraPos initialisation (line 215). -/
noncomputable def initialCameraPos : ℝ × ℝ × ℝ :=
  (camSpead2 * cameraDist, cameraDist, camSpead2 * cameraDist)

/-- constexpr float camera_speed = 0.1f (line 234). -/
def cameraSpeed : ℝ := 0.1

/-- The camera position recomputed each frame for elapsed time t (lines
237-238): x and z are overwritten, y keeps its initialisation value. -/
noncomputable def cameraPosAt (t : ℝ) : ℝ × ℝ × ℝ :=
  (Real.sin (t * cameraSpeed) * -cameraDist,
   initialCameraPos.2.1,
   Real.cos (t * cameraSpeed) * cameraDist)

/-! ## Backend control flow (lines 104-117, 119-128, 258) -/

/-- Outcomes reported by the external backend calls `main` checks. -/
structure Backend where
  glfwInitOk : Bool
  windowOk : Bool
  glewInitOk : Bool
  vertexShaderOk : Bool
  fragmentShaderOk : Bool

/-- The exit status of `main` as a function of the backend outcomes:
lines 120, 124, 128 return -1; the normal path reaches line 258 and
returns 0.  No other return statement exists. -/
def mainExit (b : Backend) : Int :=
  if !b.glfwInitOk then -1
  else if !b.windowOk then -1
  else if !b.glewInitOk then -1
  else 0

/-- `compileShader` (lines 104-117): given the handle the backend created
and the backend-reported compile status plus info log, it returns the
handle unconditionally and the list of lines written to stderr. -/
def compileShader (shaderHandle : ℕ) (success : Bool) (infoText : String) :
    ℕ × List String :=
  (shaderHandle,
   if success then [] else ["Error compiling shader: " ++ infoText])

/-! ## List helper lemmas -/

theorem flatMap_congr {α β : Type*} {l : List α} {f g : α → List β}
    (h : ∀ a ∈ l, f a = g a) : l.flatMap f = l.flatMap g := by
  induction l with
  | nil => rfl
  | cons a l ih =>
    simp only [List.flatMap_cons]
    rw [h a (List.mem_cons_self a l), ih fun a ha => h a (List.mem_cons_of_mem _ ha)]

theorem flatMap_range_mul {α : Type*} (g : ℕ → ℕ → List α) (a b : ℕ) :
    (List.range (a * b)).flatMap (fun n => g (n / b) (n % b)) =
    (List.range a).flatMap fun i => (List.range b).flatMap fun j => g i j := by
  induction a with
  | zero => simp
  | succ a ih =>
    have hab : (a + 1) * b = a * b + b := by ring
    rw [hab, List.range_add, List.flatMap_append, ih, List.range_succ,
      List.flatMap_append, List.flatMap_singleton, List.flatMap_map]
    congr 1
    apply flatMap_congr
    intro j hj
    have hjb : j < b := List.mem_range.mp hj
    have hb : 0 < b := Nat.lt_of_le_of_lt (Nat.zero_le j) hjb
    have hdiv : (a * b + j) / b = a := by
      rw [Nat.add_comm, Nat.add_mul_div_right _ _ hb, Nat.div_eq_of_lt hjb,
        Nat.zero_add]
    have hmod : (a * b + j) % b = j := by
      rw [Nat.add_comm, Nat.add_mul_mod_self_right, Nat.mod_eq_of_lt hjb]
    simp only [hdiv, hmod]

theorem map_range_mul {α : Type*} (g : ℕ → ℕ → α) (a b : ℕ) :
    (List.range (a * b)).map (fun n => g (n / b) (n % b)) =
    (List.range a).flatMap fun i => (List.range b).map fun j => g i j := by
  induction a with
  | zero => simp
  | succ a ih =>
    have hab : (a + 1) * b = a * b + b := by ring
    rw [hab, List.range_add, List.map_append, ih, List.range_succ,
      List.flatMap_append, List.flatMap_singleton, List.map_map]
    congr 1
    apply List.map_congr_left
    intro j hj
    have hjb : j < b := List.mem_range.mp hj
    have hb : 0 < b := Nat.lt_of_le_of_lt (Nat.zero_le j) hjb
    have hdiv : (a * b + j) / b = a := by
      rw [Nat.add_comm, Nat.add_mul_div_right _ _ hb, Nat.div_eq_of_lt hjb,
        Nat.zero_add]
    have hmod : (a * b + j) % b = j := by
      rw [Nat.add_comm, Nat.add_mul_mod_self_right, Nat.mod_eq_of_lt hjb]
    simp only [Function.comp, hdiv, hmod]

theorem flatMap_range_const_length {α : Type*} (f : ℕ → List α) (c : ℕ)
    (hf : ∀ i, (f i).length = c) (m : ℕ) :
    ((List.range m).flatMap f).length = m * c := by
  induction m with
  | zero => simp
  | succ m ih =>
    rw [List.range_succ, List.flatMap_append, List.length_append, ih,
      List.flatMap_singleton, hf]
    ring

theorem flatMap_range_slice {α : Type*} (f : ℕ → List α) (c m k : ℕ)
    (hf : ∀ i, (f i).length = c) (hk : k < m) :
    (((List.range m).flatMap f).drop (c * k)).take c = f k := by
  have hm : m = (k + 1) + (m - (k + 1)) := by omega
  rw [hm, List.range_add, List.flatMap_append, List.range_succ,
    List.flatMap_append, List.flatMap_singleton, List.append_assoc]
  have hlen : ((List.range k).flatMap f).length = c * k := by
    rw [flatMap_range_const_length f c hf k]; ring
  rw [List.drop_left' hlen]
  exact List.take_left' (hf k)

theorem foldl_set_range {α : Type*} (f : ℕ → α) :
    ∀ (N : ℕ) (arr : List α), N ≤ arr.length →
      (List.range N).foldl (fun a n => a.set n (f n)) arr =
        (List.range N).map f ++ arr.drop N := by
  intro N
  induction N with
  | zero => intro arr _; simp
  | succ N ih =>
    intro arr h
    rw [List.range_succ, List.foldl_append, ih arr (by omega)]
    simp only [List.foldl_cons, List.foldl_nil]
    rw [List.set_append_right _ _ (by simp)]
    simp only [List.length_map, List.length_range, Nat.sub_self]
    rw [List.drop_eq_getElem_cons (by omega), List.set_cons_zero]
    simp

/-! ## Mesh generator lemmas -/

theorem sphereVertices_eq (L G : ℕ) :
    sphereVertices L G = (List.range ((L + 1) * (G + 1))).flatMap
      (fun n => sphereVertexChunk L G (n / (G + 1)) (n % (G + 1))) := by
  rw [sphereVertices]
  exact (flatMap_range_mul (fun lat lon => sphereVertexChunk L G lat lon)
    (L + 1) (G + 1)).symm

theorem sphereIndices_eq (L G : ℕ) :
    sphereIndices L G = (List.range (L * G)).flatMap
      (fun n => sphereIndexChunk G (n / G) (n % G)) := by
  rw [sphereIndices]
  exact (flatMap_range_mul (fun lat lon => sphereIndexChunk G lat lon) L G).symm

/-! ## Claims about the mesh generator -/

/-- Claim C1: for L, G >= 1, `generateSphere` emits vertices lat-major,
lon-minor, and the vertex for (lat, lon) has position
(sin theta * cos phi, cos theta, sin theta * sin phi) with
theta = lat*pi/L and phi = lon*2*pi/G, normal equal to position, and
squared magnitude exactly 1 in the real-number idealisation. -/
theorem sphere_vertex_formula (L G lat lon : ℕ) (hL : 1 ≤ L) (hG : 1 ≤ G)
    (hlat : lat ≤ L) (hlon : lon ≤ G) :
    vertexSlice L G (lat * (G + 1) + lon) =
      [Real.sin (sphereTheta L lat) * Real.cos (spherePhi G lon),
       Real.cos (sphereTheta L lat),
       Real.sin (sphereTheta L lat) * Real.sin (spherePhi G lon),
       Real.sin (sphereTheta L lat) * Real.cos (spherePhi G lon),
       Real.cos (sphereTheta L lat),
       Real.sin (sphereTheta L lat) * Real.sin (spherePhi G lon)] ∧
    sphereTheta L lat = (lat : ℝ) * Real.pi / (L : ℝ) ∧
    spherePhi G lon = (lon : ℝ) * 2 * Real.pi / (G : ℝ) ∧
    (Real.sin (sphereTheta L lat) * Real.cos (spherePhi G lon)) ^ 2 +
      Real.cos (sphereTheta L lat) ^ 2 +
      (Real.sin (sphereTheta L lat) * Real.sin (spherePhi G lon)) ^ 2 = 1 := by
  refine ⟨?_, rfl, rfl, ?_⟩
  · rw [vertexSlice, sphereVertices_eq]
    have hk : lat * (G + 1) + lon < (L + 1) * (G + 1) := by
      calc lat * (G + 1) + lon < lat * (G + 1) + (G + 1) := by omega
        _ = (lat + 1) * (G + 1) := by ring
        _ ≤ (L + 1) * (G + 1) := Nat.mul_le_mul_right _ (by omega)
    rw [flatMap_range_slice
      (fun n => sphereVertexChunk L G (n / (G + 1)) (n % (G + 1))) 6
      ((L + 1) * (G + 1)) (lat * (G + 1) + lon) (fun n => rfl) hk]
    have hdiv : (lat * (G + 1) + lon) / (G + 1) = lat := by
      rw [Nat.add_comm, Nat.add_mul_div_right _ _ (by omega : 0 < G + 1),
        Nat.div_eq_of_lt (by omega), Nat.zero_add]
    have hmod : (lat * (G + 1) + lon) % (G + 1) = lon := by
      rw [Nat.add_comm, Nat.add_mul_mod_self_right, Nat.mod_eq_of_lt (by omega)]
    rw [hdiv, hmod, sphereVertexChunk]
    simp only [sphereRadius, one_mul]
    ring_nf
  · have h1 := Real.sin_sq_add_cos_sq (sphereTheta L lat)
    have h2 := Real.sin_sq_add_cos_sq (spherePhi G lon)
    linear_combination Real.sin (sphereTheta L lat) ^ 2 * h2 + h1

theorem sphere_vertex_formula_witness :
    vertexSlice 4 4 (1 * (4 + 1) + 2) =
      [Real.sin (sphereTheta 4 1) * Real.cos (spherePhi 4 2),
       Real.cos (sphereTheta 4 1),
       Real.sin (sphereTheta 4 1) * Real.sin (spherePhi 4 2),
       Real.sin (sphereTheta 4 1) * Real.cos (spherePhi 4 2),
       Real.cos (sphereTheta 4 1),
       Real.sin (sphereTheta 4 1) * Real.sin (spherePhi 4 2)] ∧
    sphereTheta 4 1 = ((1 : ℕ) : ℝ) * Real.pi / ((4 : ℕ) : ℝ) ∧
    spherePhi 4 2 = ((2 : ℕ) : ℝ) * 2 * Real.pi / ((4 : ℕ) : ℝ) ∧
    (Real.sin (sphereTheta 4 1) * Real.cos (spherePhi 4 2)) ^ 2 +
      Real.cos (sphereTheta 4 1) ^ 2 +
      (Real.sin (sphereTheta 4 1) * Real.sin (spherePhi 4 2)) ^ 2 = 1 :=
  sphere_vertex_formula 4 4 1 2 (by norm_num) (by norm_num) (by norm_num)
    (by norm_num)

/-- Claim C2: for L, G >= 1, `generateSphere` produces (L+1)*(G+1)
vertices (6 floats each) and 6*L*G indices. -/
theorem sphere_mesh_counts (L G : ℕ) (hL : 1 ≤ L) (hG : 1 ≤ G) :
    vertexCount L G = (L + 1) * (G + 1) ∧
    (sphereVertices L G).length = 6 * ((L + 1) * (G + 1)) ∧
    (sphereIndices L G).length = 6 * (L * G) := by
  have hv : (sphereVertices L G).length = (L + 1) * (G + 1) * 6 := by
    rw [sphereVertices_eq]
    exact flatMap_range_const_length
      (fun n => sphereVertexChunk L G (n / (G + 1)) (n % (G + 1))) 6
      (fun n => rfl) ((L + 1) * (G + 1))
  have hi : (sphereIndices L G).length = L * G * 6 := by
    rw [sphereIndices_eq]
    exact flatMap_range_const_length
      (fun n => sphereIndexChunk G (n / G) (n % G)) 6
      (fun n => rfl) (L * G)
  refine ⟨?_, by omega, by omega⟩
  rw [vertexCount, hv, Nat.mul_div_cancel _ (by norm_num)]

theorem sphere_mesh_counts_witness :
    vertexCount 4 4 = 25 ∧ (sphereIndices 4 4).length = 96 := by
  have h := sphere_mesh_counts 4 4 (by norm_num) (by norm_num)
  exact ⟨h.1.trans (by norm_num), h.2.2.trans (by norm_num)⟩

/-- Claim C3: for L, G >= 1, every index emitted by `generateSphere` is
strictly less than the vertex count (L+1)*(G+1). -/
theorem sphere_indices_bounded (L G : ℕ) (hL : 1 ≤ L) (hG : 1 ≤ G) :
    ∀ idx ∈ sphereIndices L G, idx < (L + 1) * (G + 1) := by
  intro idx hidx
  rw [sphereIndices] at hidx
  simp only [List.mem_flatMap, List.mem_range] at hidx
  obtain ⟨lat, hlat, lon, hlon, hmem⟩ := hidx
  have e1 : (lat + 1) * (G + 1) ≤ L * (G + 1) :=
    Nat.mul_le_mul_right _ (by omega)
  have e2 : (L + 1) * (G + 1) = L * (G + 1) + (G + 1) := by ring
  have e3 : (lat + 1) * (G + 1) = lat * (G + 1) + (G + 1) := by ring
  simp only [sphereIndexChunk, List.mem_cons, List.not_mem_nil, or_false]
    at hmem
  rcases hmem with h | h | h | h | h | h <;> subst h <;> linarith

theorem sphere_indices_bounded_witness :
    (24 : ℕ) ∈ sphereIndices 4 4 ∧ (24 : ℕ) < (4 + 1) * (4 + 1) :=
  ⟨by decide, sphere_indices_bounded 4 4 (by norm_num) (by norm_num) 24
    (by decide)⟩

/-- Claim C10: `generateSphere` clears both output vectors first, so its
result depends only on (L, G) and not on the vectors' prior contents. -/
theorem generateSphere_ignores_prior (oldV oldV' : List ℝ)
    (oldI oldI' : List ℕ) (L G : ℕ) :
    generateSphere oldV oldI L G = generateSphere oldV' oldI' L G ∧
    generateSphere oldV oldI L G = (sphereVertices L G, sphereIndices L G) :=
  ⟨rfl, rfl⟩

/-! ## Instance grid lemmas -/

theorem linIndex_jk_lt (Ny Nz j k : ℕ) (hj : j < Ny) (hk : k < Nz) :
    j * Nz + k < Ny * Nz := by
  calc j * Nz + k < j * Nz + Nz := by omega
    _ = (j + 1) * Nz := by ring
    _ ≤ Ny * Nz := Nat.mul_le_mul_right _ (by omega)

theorem linIndex_lt (Nx Ny Nz i j k : ℕ) (hi : i < Nx) (hj : j < Ny)
    (hk : k < Nz) : linIndex Ny Nz i j k < Nx * Ny * Nz := by
  have hjk : j * Nz + k < Ny * Nz := linIndex_jk_lt Ny Nz j k hj hk
  rw [linIndex]
  calc i * (Ny * Nz) + j * Nz + k = i * (Ny * Nz) + (j * Nz + k) := by ring
    _ < i * (Ny * Nz) + Ny * Nz := Nat.add_lt_add_left hjk _
    _ = (i + 1) * (Ny * Nz) := by ring
    _ ≤ Nx * (Ny * Nz) := Nat.mul_le_mul_right _ (by omega)
    _ = Nx * Ny * Nz := by ring

theorem linIndex_mod (Ny Nz i j k : ℕ) (hj : j < Ny) (hk : k < Nz) :
    linIndex Ny Nz i j k % (Ny * Nz) = j * Nz + k := by
  have hjk : j * Nz + k < Ny * Nz := linIndex_jk_lt Ny Nz j k hj hk
  rw [linIndex, Nat.add_assoc, Nat.add_comm, Nat.add_mul_mod_self_right,
    Nat.mod_eq_of_lt hjk]

theorem linIndex_decode₁ (Ny Nz i j k : ℕ) (hj : j < Ny) (hk : k < Nz) :
    linIndex Ny Nz i j k / (Ny * Nz) = i := by
  have hjk : j * Nz + k < Ny * Nz := linIndex_jk_lt Ny Nz j k hj hk
  have hpos : 0 < Ny * Nz := Nat.lt_of_le_of_lt (Nat.zero_le _) hjk
  rw [linIndex, Nat.add_assoc, Nat.add_comm,
    Nat.add_mul_div_right _ _ hpos, Nat.div_eq_of_lt hjk, Nat.zero_add]

theorem linIndex_decode₂ (Ny Nz i j k : ℕ) (hj : j < Ny) (hk : k < Nz) :
    linIndex Ny Nz i j k % (Ny * Nz) / Nz = j := by
  rw [linIndex_mod Ny Nz i j k hj hk, Nat.add_comm,
    Nat.add_mul_div_right _ _ (by omega : 0 < Nz), Nat.div_eq_of_lt hk,
    Nat.zero_add]

theorem linIndex_decode₃ (Ny Nz i j k : ℕ) (hj : j < Ny) (hk : k < Nz) :
    linIndex Ny Nz i j k % (Ny * Nz) % Nz = k := by
  rw [linIndex_mod Ny Nz i j k hj hk, Nat.add_comm,
    Nat.add_mul_mod_self_right, Nat.mod_eq_of_lt hk]

theorem linIndex_decode (Ny Nz n : ℕ) :
    linIndex Ny Nz (n / (Ny * Nz)) (n % (Ny * Nz) / Nz)
      (n % (Ny * Nz) % Nz) = n := by
  have h1 : n % (Ny * Nz) / Nz * Nz + n % (Ny * Nz) % Nz = n % (Ny * Nz) :=
    Nat.div_add_mod' _ _
  have h2 : n / (Ny * Nz) * (Ny * Nz) + n % (Ny * Nz) = n :=
    Nat.div_add_mod' _ _
  rw [linIndex, Nat.add_assoc, h1, h2]

theorem gridCoords_eq (Nx Ny Nz : ℕ) :
    gridCoords Nx Ny Nz = (List.range (Nx * Ny * Nz)).map
      (fun n => (n / (Ny * Nz), n % (Ny * Nz) / Nz, n % (Ny * Nz) % Nz)) := by
  rw [gridCoords]
  have inner : (fun i => (List.range Ny).flatMap fun j =>
        (List.range Nz).map fun k => ((i, j, k) : ℕ × ℕ × ℕ))
      = fun i => (List.range (Ny * Nz)).map fun m => (i, m / Nz, m % Nz) := by
    funext i
    exact (map_range_mul (fun j k => ((i, j, k) : ℕ × ℕ × ℕ)) Ny Nz).symm
  rw [inner, Nat.mul_assoc]
  exact (map_range_mul
    (fun i m => ((i, m / Nz, m % Nz) : ℕ × ℕ × ℕ)) Nx (Ny * Nz)).symm

theorem buildGrid_eq (Nx Ny Nz : ℕ) (spr scl : ℚ) :
    buildGrid Nx Ny Nz spr scl = (List.range (Nx * Ny * Nz)).map
      (fun n => gridRecord Nx Nz spr scl (n / (Ny * Nz))
        (n % (Ny * Nz) / Nz) (n % (Ny * Nz) % Nz)) := by
  rw [buildGrid, gridCoords_eq]
  rw [List.foldl_map]
  have hfun : (fun (arr : List InstanceData) (n : ℕ) =>
      arr.set (linIndex Ny Nz (n / (Ny * Nz)) (n % (Ny * Nz) / Nz)
          (n % (Ny * Nz) % Nz))
        (gridRecord Nx Nz spr scl (n / (Ny * Nz)) (n % (Ny * Nz) / Nz)
          (n % (Ny * Nz) % Nz)))
      = fun (arr : List InstanceData) (n : ℕ) =>
        arr.set n (gridRecord Nx Nz spr scl (n / (Ny * Nz))
          (n % (Ny * Nz) / Nz) (n % (Ny * Nz) % Nz)) := by
    funext arr n
    rw [linIndex_decode]
  show (List.range (Nx * Ny * Nz)).foldl
      (fun (arr : List InstanceData) (n : ℕ) =>
        arr.set (linIndex Ny Nz (n / (Ny * Nz)) (n % (Ny * Nz) / Nz)
            (n % (Ny * Nz) % Nz))
          (gridRecord Nx Nz spr scl (n / (Ny * Nz)) (n % (Ny * Nz) / Nz)
            (n % (Ny * Nz) % Nz)))
      (List.replicate (Nx * Ny * Nz) default) = _
  rw [hfun, foldl_set_range _ (Nx * Ny * Nz)
    (List.replicate (Nx * Ny * Nz) default) (by simp)]
  simp

theorem buildGrid_get (Nx Ny Nz : ℕ) (spr scl : ℚ) (i j k : ℕ)
    (hi : i < Nx) (hj : j < Ny) (hk : k < Nz) :
    (buildGrid Nx Ny Nz spr scl)[linIndex Ny Nz i j k]? =
      some (gridRecord Nx Nz spr scl i j k) := by
  rw [buildGrid_eq]
  have hlt : linIndex Ny Nz i j k < Nx * Ny * Nz :=
    linIndex_lt Nx Ny Nz i j k hi hj hk
  rw [List.getElem?_map, List.getElem?_range hlt, Option.map_some']
  rw [linIndex_decode₁ Ny Nz i j k hj hk, linIndex_decode₂ Ny Nz i j k hj hk,
    linIndex_decode₃ Ny Nz i j k hj hk]

/-! ## Claims about the instance grid -/

/-- Claim C4: for every in-range lattice coordinate (i,j,k), the instance
record's model matrix is the translation by
(x, y, z) = (-(Nx/2)*spread + spread*i, spread*j + spread,
-(Nz/2)*spread + spread*k) composed with a local-space uniform scale
(model = T * S), and the translation column of T * S is (x, y, z). -/
theorem instance_model_matrix (Nx Ny Nz : ℕ) (spr scl : ℚ) (i j k : ℕ)
    (hi : i < Nx) (hj : j < Ny) (hk : k < Nz) :
    Option.map InstanceData.model
        ((buildGrid Nx Ny Nz spr scl)[linIndex Ny Nz i j k]?) =
      some (translationMatrix (-(Nx : ℚ) / 2 * spr + spr * i)
        (spr * j + spr) (-(Nz : ℚ) / 2 * spr + spr * k) * scaleMatrix scl) ∧
    (translationMatrix (-(Nx : ℚ) / 2 * spr + spr * i) (spr * j + spr)
        (-(Nz : ℚ) / 2 * spr + spr * k) * scaleMatrix scl) 0 3 =
      -(Nx : ℚ) / 2 * spr + spr * i ∧
    (translationMatrix (-(Nx : ℚ) / 2 * spr + spr * i) (spr * j + spr)
        (-(Nz : ℚ) / 2 * spr + spr * k) * scaleMatrix scl) 1 3 =
      spr * j + spr ∧
    (translationMatrix (-(Nx : ℚ) / 2 * spr + spr * i) (spr * j + spr)
        (-(Nz : ℚ) / 2 * spr + spr * k) * scaleMatrix scl) 2 3 =
      -(Nz : ℚ) / 2 * spr + spr * k := by
  refine ⟨?_, ?_, ?_, ?_⟩
  · rw [buildGrid_get Nx Ny Nz spr scl i j k hi hj hk]
    simp [gridRecord, glmScale, glmTranslate, Matrix.one_mul]
  · simp [Matrix.mul_apply, Fin.sum_univ_four, translationMatrix, scaleMatrix]
  · simp [Matrix.mul_apply, Fin.sum_univ_four, translationMatrix, scaleMatrix]
  · simp [Matrix.mul_apply, Fin.sum_univ_four, translationMatrix, scaleMatrix]

theorem instance_model_matrix_witness :
    Option.map InstanceData.model
        ((buildGrid 2 2 2 spread instanceScale)[linIndex 2 2 1 1 1]?) =
      some (translationMatrix (-((2 : ℕ) : ℚ) / 2 * spread + spread * 1)
        (spread * 1 + spread) (-((2 : ℕ) : ℚ) / 2 * spread + spread * 1) *
        scaleMatrix instanceScale) ∧
    (translationMatrix (-((2 : ℕ) : ℚ) / 2 * spread + spread * 1)
        (spread * 1 + spread) (-((2 : ℕ) : ℚ) / 2 * spread + spread * 1) *
        scaleMatrix instanceScale) 0 3 =
      -((2 : ℕ) : ℚ) / 2 * spread + spread * 1 ∧
    (translationMatrix (-((2 : ℕ) : ℚ) / 2 * spread + spread * 1)
        (spread * 1 + spread) (-((2 : ℕ) : ℚ) / 2 * spread + spread * 1) *
        scaleMatrix instanceScale) 1 3 = spread * 1 + spread ∧
    (translationMatrix (-((2 : ℕ) : ℚ) / 2 * spread + spread * 1)
        (spread * 1 + spread) (-((2 : ℕ) : ℚ) / 2 * spread + spread * 1) *
        scaleMatrix instanceScale) 2 3 =
      -((2 : ℕ) : ℚ) / 2 * spread + spread * 1 :=
  instance_model_matrix 2 2 2 spread instanceScale 1 1 1 (by norm_num)
    (by norm_num) (by norm_num)

/-- Claim C5: the instance record's color is
(0.1*(i+1), 0.1*(j+1), 0.1*(k+1)), a function of the lattice coordinate
only (the spacing and scale parameters do not appear), unclamped: past
i >= 10 the component exceeds 1. -/
theorem instance_color_rule (Nx Ny Nz : ℕ) (spr scl : ℚ) (i j k : ℕ)
    (hi : i < Nx) (hj : j < Ny) (hk : k < Nz) :
    Option.map InstanceData.color
        ((buildGrid Nx Ny Nz spr scl)[linIndex Ny Nz i j k]?) =
      some (0.1 * ((i : ℚ) + 1), 0.1 * ((j : ℚ) + 1), 0.1 * ((k : ℚ) + 1)) ∧
    (10 ≤ i → 1 < 0.1 * ((i : ℚ) + 1)) := by
  constructor
  · rw [buildGrid_get Nx Ny Nz spr scl i j k hi hj hk]
    simp [gridRecord]
  · intro h10
    have hcast : (10 : ℚ) ≤ (i : ℚ) := by exact_mod_cast h10
    linarith

theorem instance_color_rule_witness :
    Option.map InstanceData.color
        ((buildGrid 30 30 30 spread instanceScale)[linIndex 30 30 29 29 29]?) =
      some (0.1 * (((29 : ℕ) : ℚ) + 1), 0.1 * (((29 : ℕ) : ℚ) + 1),
        0.1 * (((29 : ℕ) : ℚ) + 1)) ∧
    (10 ≤ 29 → 1 < 0.1 * (((29 : ℕ) : ℚ) + 1)) :=
  instance_color_rule 30 30 30 spread instanceScale 29 29 29 (by norm_num)
    (by norm_num) (by norm_num)

/-- Claim C6: the linearisation (i,j,k) to i*(Ny*Nz) + j*Nz + k is a
bijection from the in-range lattice coordinates onto [0, Nx*Ny*Nz); the
instance array holds exactly Nx*Ny*Nz records, 27000 for the program's
30x30x30 grid, and the draw call uses instance count 27000. -/
theorem grid_linearization_bijective (Nx Ny Nz : ℕ) (spr scl : ℚ) :
    Set.BijOn (fun t : ℕ × ℕ × ℕ => linIndex Ny Nz t.1 t.2.1 t.2.2)
      {t : ℕ × ℕ × ℕ | t.1 < Nx ∧ t.2.1 < Ny ∧ t.2.2 < Nz}
      (Set.Iio (Nx * Ny * Nz)) ∧
    (buildGrid Nx Ny Nz spr scl).length = Nx * Ny * Nz ∧
    mainInstanceData.length = 27000 ∧
    drawInstanceCount = 27000 := by
  refine ⟨⟨?_, ?_, ?_⟩, ?_, ?_, ?_⟩
  · intro t ht
    simp only [Set.mem_Iio]
    exact linIndex_lt Nx Ny Nz t.1 t.2.1 t.2.2 ht.1 ht.2.1 ht.2.2
  · intro t ht t' ht' heq
    obtain ⟨h1, h2, h3⟩ := ht
    obtain ⟨h1', h2', h3'⟩ := ht'
    have heq' : linIndex Ny Nz t.1 t.2.1 t.2.2 =
        linIndex Ny Nz t'.1 t'.2.1 t'.2.2 := heq
    have e1 : t.1 = t'.1 := by
      calc t.1 = linIndex Ny Nz t.1 t.2.1 t.2.2 / (Ny * Nz) :=
            (linIndex_decode₁ Ny Nz t.1 t.2.1 t.2.2 h2 h3).symm
        _ = linIndex Ny Nz t'.1 t'.2.1 t'.2.2 / (Ny * Nz) := by rw [heq']
        _ = t'.1 := linIndex_decode₁ Ny Nz t'.1 t'.2.1 t'.2.2 h2' h3'
    have e2 : t.2.1 = t'.2.1 := by
      calc t.2.1 = linIndex Ny Nz t.1 t.2.1 t.2.2 % (Ny * Nz) / Nz :=
            (linIndex_decode₂ Ny Nz t.1 t.2.1 t.2.2 h2 h3).symm
        _ = linIndex Ny Nz t'.1 t'.2.1 t'.2.2 % (Ny * Nz) / Nz := by rw [heq']
        _ = t'.2.1 := linIndex_decode₂ Ny Nz t'.1 t'.2.1 t'.2.2 h2' h3'
    have e3 : t.2.2 = t'.2.2 := by
      calc t.2.2 = linIndex Ny Nz t.1 t.2.1 t.2.2 % (Ny * Nz) % Nz :=
            (linIndex_decode₃ Ny Nz t.1 t.2.1 t.2.2 h2 h3).symm
        _ = linIndex Ny Nz t'.1 t'.2.1 t'.2.2 % (Ny * Nz) % Nz := by rw [heq']
        _ = t'.2.2 := linIndex_decode₃ Ny Nz t'.1 t'.2.1 t'.2.2 h2' h3'
    exact Prod.ext e1 (Prod.ext e2 e3)
  · intro n hn
    have hn' : n < Nx * Ny * Nz := hn
    have hBpos : 0 < Ny * Nz := by
      rcases Nat.eq_zero_or_pos (Ny * Nz) with h | h
      · have hz : Nx * Ny * Nz = 0 := by rw [Nat.mul_assoc, h, Nat.mul_zero]
        rw [hz] at hn'
        exact absurd hn' (by omega)
      · exact h
    have hNz : 0 < Nz := by
      rcases Nat.eq_zero_or_pos Nz with h | h
      · rw [h, Nat.mul_zero] at hBpos
        exact absurd hBpos (by omega)
      · exact h
    refine ⟨(n / (Ny * Nz), n % (Ny * Nz) / Nz, n % (Ny * Nz) % Nz),
      ⟨?_, ?_, ?_⟩, linIndex_decode Ny Nz n⟩
    · rw [Nat.div_lt_iff_lt_mul hBpos]
      calc n < Nx * Ny * Nz := hn'
        _ = Nx * (Ny * Nz) := by ring
    · rw [Nat.div_lt_iff_lt_mul hNz]
      exact Nat.mod_lt _ hBpos
    · exact Nat.mod_lt _ hNz
  · rw [buildGrid_eq]
    simp
  · rw [mainInstanceData, buildGrid_eq]
    simp [numObj_x, numObj_y, numObj_z]
  · rw [drawInstanceCount, instanceCount, numObj_x, numObj_y, numObj_z]

/-! ## Claims about the camera and the backend control flow -/

/-- Claim C7: the per-frame camera position is
(-radius*sin(speed*t), y0, radius*cos(speed*t)) with y fixed at its
initialisation value; at t = 0 it is (0, y0, radius), and its horizontal
(x,z) magnitude is radius for every t. -/
theorem camera_orbit (t : ℝ) :
    cameraPosAt t = (-cameraDist * Real.sin (cameraSpeed * t),
      initialCameraPos.2.1, cameraDist * Real.cos (cameraSpeed * t)) ∧
    cameraPosAt 0 = (0, initialCameraPos.2.1, cameraDist) ∧
    Real.sqrt ((cameraPosAt t).1 ^ 2 + (cameraPosAt t).2.2 ^ 2) =
      cameraDist := by
  refine ⟨?_, ?_, ?_⟩
  · simp only [cameraPosAt, Prod.mk.injEq]
    rw [mul_comm t cameraSpeed]
    exact ⟨by ring, trivial, by ring⟩
  · simp [cameraPosAt]
  · have hR : (0 : ℝ) ≤ cameraDist := by
      rw [cameraDist, spread, numObj_x]
      push_cast
      norm_num
    have hx : (cameraPosAt t).1 ^ 2 + (cameraPosAt t).2.2 ^ 2 =
        cameraDist ^ 2 := by
      simp only [cameraPosAt]
      have h1 := Real.sin_sq_add_cos_sq (t * cameraSpeed)
      linear_combination cameraDist ^ 2 * h1
    rw [hx, Real.sqrt_sq hR]

/-- Claim C8: the process exits with status 0 on normal window close and
with status -1 exactly when one of the backend-initialisation steps
(glfwInit, window creation, glewInit) fails; no other exit paths exist. -/
theorem main_exit_status (b : Backend) :
    (mainExit b = 0 ∨ mainExit b = -1) ∧
    (mainExit b = -1 ↔
      (b.glfwInitOk = false ∨ b.windowOk = false ∨ b.glewInitOk = false)) ∧
    (mainExit b = 0 ↔
      (b.glfwInitOk = true ∧ b.windowOk = true ∧ b.glewInitOk = true)) := by
  obtain ⟨g, w, e, vs, fs⟩ := b
  cases g <;> cases w <;> cases e <;> cases vs <;> cases fs <;> decide

/-- Claim C9: on compile failure `compileShader` writes one diagnostic
string to stderr and still returns the shader handle; on success it writes
nothing; and `main`'s exit status never depends on the shader compile
results, so execution continues either way. -/
theorem compileShader_error_policy (shaderHandle : ℕ) (infoText : String)
    (b : Backend) :
    (compileShader shaderHandle true infoText).1 = shaderHandle ∧
    (compileShader shaderHandle false infoText).1 = shaderHandle ∧
    (compileShader shaderHandle true infoText).2 = [] ∧
    (compileShader shaderHandle false infoText).2 =
      ["Error compiling shader: " ++ infoText] ∧
    (∀ vs fs : Bool,
      mainExit { glfwInitOk := b.glfwInitOk, windowOk := b.windowOk,
                 glewInitOk := b.glewInitOk, vertexShaderOk := vs,
                 fragmentShaderOk := fs } = mainExit b) :=
  ⟨rfl, rfl, rfl, rfl, fun _ _ => rfl⟩
